import Mathlib

/-!
Shallow embedding of the `log_ec` embedded-C logging library
(`src/log_ec.c`, `src/log_ec.h`).

Modelling conventions:
* C function pointers are opaque identifiers of type `Nat`; the null
  pointer is `0`.  A callback identity is the pair `(cbFn, cbData)`.
* The C `int` logging level is an (unbounded) `Int`; the `tLog_level`
  enum constants are `0 .. 5`.
* The optional lock function `tLog_lockFn` is modelled by its behaviour
  `Bool → Bool` (argument: `true` = acquire, `false` = release; result:
  success flag).  The optional timestamp function is modelled by the
  value it returns.
* The external console sink (`CONSOLE_PRINTF` / `CONSOLE_VPRINTF`) is
  modelled by a success flag `consoleOk` plus a rendering of the format
  string; on success printf returns the number of characters written.
* `log_log` returns `Option DispatchResult`: `none` marks the
  out-of-bounds access `level_strings[ev->level]` (undefined behaviour
  in the C source); `some r` records the return value, the console
  output handed to the sink, the callback invocations in order, and the
  arguments of every call made to the installed lock function.
-/

namespace LogEc

/-- One slot of the `callbacks` array: mirrors the C `tCallback` struct
(`cbFn`, `cbData`, `cbLogLevel`). -/
structure tCallback where
  cbFn : Nat
  cbData : Nat
  cbLogLevel : Int
  deriving DecidableEq, Repr

/-- Enum constant `LOG_TRACE` of `tLog_level`. -/
def LOG_TRACE : Int := 0
/-- Enum constant `LOG_DEBUG` of `tLog_level`. -/
def LOG_DEBUG : Int := 1
/-- Enum constant `LOG_INFO` of `tLog_level`. -/
def LOG_INFO : Int := 2
/-- Enum constant `LOG_WARN` of `tLog_level`. -/
def LOG_WARN : Int := 3
/-- Enum constant `LOG_ERROR` of `tLog_level`. -/
def LOG_ERROR : Int := 4
/-- Enum constant `LOG_FATAL` of `tLog_level`. -/
def LOG_FATAL : Int := 5

/-- The cleared slot value `{ NULL, NULL, LOG_TRACE }` written by
`log_unregisterCallbackFn`. -/
def emptySlot : tCallback := ⟨0, 0, LOG_TRACE⟩

/-- The C global `logConfig` (`tLogConfig`), together with the modelled
behaviour of the external console sink (`consoleOk`). -/
structure tLogConfig where
  lockFn : Option (Bool → Bool)
  lockData : Nat := 0
  timestampFn : Option Nat
  level : Int
  consoleLoggingDisabled : Bool
  callbacks : List tCallback
  consoleOk : Bool

/-- The C `tLog_event` struct; the variadic argument list is modelled as
a list of integers consumed by the `%d` directives of the format
string. -/
structure tLog_event where
  time : Nat
  level : Int
  file : String
  line : Int
  fmt : String
  args : List Int
  deriving DecidableEq, Repr

/-- Table `level_strings` of level names, indexed by the event level. -/
def level_strings : List String :=
  ["TRACE", "DEBUG", "INFO", "WARN", "ERROR", "FATAL"]

/-- Function `getTimestamp()`: the installed timestamp function's value, or `0`. -/
def getTimestamp (cfg : tLogConfig) : Nat :=
  cfg.timestampFn.getD 0

/-- The C array access `level_strings[level]`: `some` of the level name
when the index is in bounds, `none` when the access is out of bounds. -/
def levelName (level : Int) : Option String :=
  if level < 0 then none else level_strings.get? level.toNat

/-- printf right justification in a minimum field width (`%8u`): pad on
the left with spaces, never truncate. -/
def padLeft (w : Nat) (s : String) : String :=
  String.mk (List.replicate (w - s.length) ' ') ++ s

/-- printf left justification in a minimum field width (`%-5s`): pad on
the right with spaces, never truncate. -/
def padRight (w : Nat) (s : String) : String :=
  s ++ String.mk (List.replicate (w - s.length) ' ')

/-- Model of the C library `vprintf` rendering for the directives this
development uses: literal characters, `%d` consuming one argument, and
`%%`. -/
def vprintfRender : List Char → List Int → String
  | [], _ => ""
  | '%' :: 'd' :: rest, a :: as => toString a ++ vprintfRender rest as
  | '%' :: '%' :: rest, as => "%" ++ vprintfRender rest as
  | c :: rest, as => String.singleton c ++ vprintfRender rest as

/-- Function `log_print(ev)` (monochrome variant, `LOG_USE_COLOR = 0`): emit
`"%8u %-5s %s:%d: "` then the rendered body.  Returns `none` on the
out-of-bounds table access, otherwise `some (result, line)` where
`result` is the C return value (character count on success, `-1` when
the console sink fails) and `line` is the full text handed to the
console. -/
def log_print (consoleOk : Bool) (ev : tLog_event) : Option (Int × String) :=
  match levelName ev.level with
  | none => none
  | some name =>
      let head := padLeft 8 (toString ev.time) ++ " " ++ padRight 5 name ++ " "
          ++ ev.file ++ ":" ++ toString ev.line ++ ": "
      let line := head ++ vprintfRender ev.fmt.data ev.args
      some (if consoleOk then ((line.length : Int)) else -1, line)

/-- Function `lock()`: acquisition succeeds when no lock function is installed,
otherwise it is the installed function's answer to `lock(true, ...)`. -/
def lockAcquires (cfg : tLogConfig) : Bool :=
  match cfg.lockFn with
  | none => true
  | some f => f true

/-- The callback fan-out loop of `log_log`: every occupied slot
(`cbFn != NULL`) whose `cbLogLevel` is at most the event level is
invoked, in slot order; the list records `(cbFn, cbData)` of each
invocation. -/
def invokeCallbacks (level : Int) : List tCallback → List (Nat × Nat)
  | [] => []
  | c :: rest =>
      if c.cbFn ≠ 0 ∧ c.cbLogLevel ≤ level then
        (c.cbFn, c.cbData) :: invokeCallbacks level rest
      else
        invokeCallbacks level rest

/-- Everything observable about one `log_log` call: its return value,
the console output (if any), the callback invocations in order, the
arguments of the calls made to the installed lock function, and the
configuration state after the call. -/
structure DispatchResult where
  result : Int
  console : Option String
  callbackCalls : List (Nat × Nat)
  lockCalls : List Bool
  finalConfig : tLogConfig

/-- Body of `log_log` once the lock is held: console step (guarded by
the enabled flag and the global minimum level), callback fan-out, then
`unlock()`. -/
def dispatchLocked (cfg : tLogConfig) (ev : tLog_event) (acqCalls : List Bool) :
    Option DispatchResult :=
  let consoleStep : Option (Int × Option String) :=
    if ¬ cfg.consoleLoggingDisabled ∧ cfg.level ≤ ev.level then
      match log_print cfg.consoleOk ev with
      | none => none
      | some (res, line) => some (res, some line)
    else
      some (0, none)
  match consoleStep with
  | none => none
  | some (res, out) =>
      let unlockCalls : List Bool :=
        match cfg.lockFn with
        | none => []
        | some _ => [false]
      some { result := res, console := out,
             callbackCalls := invokeCallbacks ev.level cfg.callbacks,
             lockCalls := acqCalls ++ unlockCalls,
             finalConfig := cfg }

/-- Function `log_log(level, file, line, fmt, ...)`: build the event, attempt the
lock, and on success run the console step, the callback fan-out and the
unconditional `unlock()`.  `none` marks the out-of-bounds
`level_strings` access reachable in the console step. -/
def log_log (cfg : tLogConfig) (level : Int) (file : String) (line : Int)
    (fmt : String) (args : List Int) : Option DispatchResult :=
  let ev : tLog_event :=
    { time := getTimestamp cfg, level := level, file := file, line := line,
      fmt := fmt, args := args }
  match cfg.lockFn with
  | none => dispatchLocked cfg ev []
  | some f =>
      if f true then
        dispatchLocked cfg ev [true]
      else
        some { result := 0, console := none, callbackCalls := [],
               lockCalls := [true], finalConfig := cfg }

/-- The identity test of `log_unregisterCallbackFn`:
`cbFn == callbacks[i].cbFn && cbData == callbacks[i].cbData`. -/
def cbMatches (cbFn cbData : Nat) (c : tCallback) : Bool :=
  c.cbFn == cbFn && c.cbData == cbData

/-- The empty-slot test of `log_registerCallbackFn`:
`NULL == callbacks[i].cbFn`. -/
def isEmptySlot (c : tCallback) : Bool :=
  c.cbFn == 0

/-- Function `log_unregisterCallbackFn(cbFn, cbData)`: clear the first slot whose
`(cbFn, cbData)` pair matches exactly, then stop; no-op when nothing
matches. -/
def log_unregisterCallbackFn (cbFn cbData : Nat) : List tCallback → List tCallback
  | [] => []
  | c :: rest =>
      if cbMatches cbFn cbData c then
        emptySlot :: rest
      else
        c :: log_unregisterCallbackFn cbFn cbData rest

/-- The registration loop of `log_registerCallbackFn`: install the entry
in the first slot with a null `cbFn`, returning whether a slot was
found. -/
def installFirstEmpty (entry : tCallback) : List tCallback → List tCallback × Bool
  | [] => ([], false)
  | c :: rest =>
      if isEmptySlot c then
        (entry :: rest, true)
      else
        let r := installFirstEmpty entry rest
        (c :: r.1, r.2)

/-- Function `log_registerCallbackFn(cbFn, cbData, cbLogLevel)`: first remove any
existing registration with the same identity, then install the new
entry in the first empty slot; returns the updated registry and the C
return value. -/
def log_registerCallbackFn (cbFn cbData : Nat) (cbLogLevel : Int)
    (cbs : List tCallback) : List tCallback × Bool :=
  installFirstEmpty ⟨cbFn, cbData, cbLogLevel⟩
    (log_unregisterCallbackFn cbFn cbData cbs)

/-- Configuration fixture: lock function installed that denies acquisition. -/
def cfgDenied : tLogConfig :=
  { lockFn := some (fun _ => false), timestampFn := none, level := 0,
    consoleLoggingDisabled := false, callbacks := [⟨7, 3, 0⟩], consoleOk := true }

/-- Configuration fixture: no lock function, console enabled, minimum level 2. -/
def cfgMin2 : tLogConfig :=
  { lockFn := none, timestampFn := none, level := 2,
    consoleLoggingDisabled := false, callbacks := [], consoleOk := true }

/-- Configuration fixture: lock function installed that always succeeds,
console disabled. -/
def cfgLockOk : tLogConfig :=
  { lockFn := some (fun _ => true), timestampFn := none, level := 0,
    consoleLoggingDisabled := true, callbacks := [], consoleOk := true }

/-- Configuration fixture for the round-trip formatting example. -/
def cfgRoundTrip : tLogConfig :=
  { lockFn := none, timestampFn := some 12345, level := 0,
    consoleLoggingDisabled := false, callbacks := [], consoleOk := true }

/-- Event fixture for C8: a 10-digit timestamp. -/
def evWideTimestamp : tLog_event :=
  { time := 4294967295, level := 0, file := "x.c", line := 1,
    fmt := "\n", args := [] }

end LogEc

namespace LogEc

/-- Lookup `level_strings[level]` is in bounds for every enum level. -/
lemma levelName_isSome (l : Int) (h0 : 0 ≤ l) (h5 : l ≤ 5) :
    ∃ s, levelName l = some s := by
  unfold levelName
  rw [if_neg (not_lt.2 h0)]
  have hlt : l.toNat < level_strings.length := by
    simp [level_strings]
    omega
  exact ⟨_, List.get?_eq_get hlt⟩

/-- When lock acquisition fails, `log_log` drops the event. -/
lemma log_log_denied_eq (cfg : tLogConfig) (f : Bool → Bool)
    (hf : cfg.lockFn = some f) (hd : f true = false)
    (level : Int) (file : String) (line : Int) (fmt : String) (args : List Int) :
    log_log cfg level file line fmt args =
      some { result := 0, console := none, callbackCalls := [],
             lockCalls := [true], finalConfig := cfg } := by
  unfold log_log
  rw [hf]
  simp [hd]

/-- Normal form of `log_log` when lock acquisition succeeds and the
level is a valid enum value. -/
lemma log_log_locked_eq (cfg : tLogConfig) (level : Int) (file : String)
    (line : Int) (fmt : String) (args : List Int)
    (hlock : lockAcquires cfg = true) (h0 : 0 ≤ level) (h5 : level ≤ 5) :
    ∃ pline : String,
      log_print cfg.consoleOk
          { time := getTimestamp cfg, level := level, file := file,
            line := line, fmt := fmt, args := args } =
        some (if cfg.consoleOk then ((pline.length : Int)) else -1, pline) ∧
      log_log cfg level file line fmt args =
        some { result := if ¬ cfg.consoleLoggingDisabled ∧ cfg.level ≤ level then
                           (if cfg.consoleOk then ((pline.length : Int)) else -1)
                         else 0,
               console := if ¬ cfg.consoleLoggingDisabled ∧ cfg.level ≤ level then
                            some pline
                          else none,
               callbackCalls := invokeCallbacks level cfg.callbacks,
               lockCalls := match cfg.lockFn with
                            | none => []
                            | some _ => [true, false],
               finalConfig := cfg } := by
  obtain ⟨name, hname⟩ := levelName_isSome level h0 h5
  refine ⟨padLeft 8 (toString (getTimestamp cfg)) ++ " " ++ padRight 5 name ++ " "
      ++ file ++ ":" ++ toString line ++ ": " ++ vprintfRender fmt.data args, ?_, ?_⟩
  · unfold log_print
    rw [hname]
  · unfold log_log dispatchLocked
    have hprint : log_print cfg.consoleOk
        { time := getTimestamp cfg, level := level, file := file,
          line := line, fmt := fmt, args := args } =
        some (if cfg.consoleOk then
                (((padLeft 8 (toString (getTimestamp cfg)) ++ " " ++ padRight 5 name ++ " "
                  ++ file ++ ":" ++ toString line ++ ": "
                  ++ vprintfRender fmt.data args).length : Int))
              else -1,
              padLeft 8 (toString (getTimestamp cfg)) ++ " " ++ padRight 5 name ++ " "
                ++ file ++ ":" ++ toString line ++ ": " ++ vprintfRender fmt.data args) := by
      unfold log_print
      rw [hname]
    cases hfn : cfg.lockFn with
    | none =>
        simp only [hfn]
        by_cases hc : ¬ cfg.consoleLoggingDisabled ∧ cfg.level ≤ level
        · rw [if_pos hc, hprint]
          simp [hc]
        · rw [if_neg hc]
          have hc' : ¬ (cfg.consoleLoggingDisabled = false ∧ cfg.level ≤ level) := by
            simpa using hc
          simp [hc']
    | some f =>
        have hft : f true = true := by
          unfold lockAcquires at hlock
          rw [hfn] at hlock
          exact hlock
        simp only [hfn, hft, if_pos]
        by_cases hc : ¬ cfg.consoleLoggingDisabled ∧ cfg.level ≤ level
        · rw [if_pos hc, hprint]
          simp [hc]
        · rw [if_neg hc]
          have hc' : ¬ (cfg.consoleLoggingDisabled = false ∧ cfg.level ≤ level) := by
            simpa using hc
          simp [hc']

end LogEc

namespace LogEc

/-- The callback fan-out invokes exactly the occupied entries whose
threshold is satisfied, in slot order. -/
lemma invokeCallbacks_eq_filter_map (level : Int) (cbs : List tCallback) :
    invokeCallbacks level cbs =
      (cbs.filter (fun c => decide (c.cbFn ≠ 0 ∧ c.cbLogLevel ≤ level))).map
        (fun c => (c.cbFn, c.cbData)) := by
  induction cbs with
  | nil => rfl
  | cons c rest ih =>
      by_cases h : c.cbFn ≠ 0 ∧ c.cbLogLevel ≤ level
      · simp [invokeCallbacks, h, ih, List.filter_cons]
      · simp [invokeCallbacks, h, ih, List.filter_cons]

/-- C1: if an installed lock function denies acquisition, `log_log`
returns 0, emits nothing to the console, invokes no callback, and
leaves the whole configuration (callback registry included) unchanged. -/
theorem log_log_lock_denied (cfg : tLogConfig) (f : Bool → Bool)
    (level : Int) (file : String) (line : Int) (fmt : String) (args : List Int)
    (hf : cfg.lockFn = some f) (hd : f true = false) :
    log_log cfg level file line fmt args =
      some { result := 0, console := none, callbackCalls := [],
             lockCalls := [true], finalConfig := cfg } :=
  log_log_denied_eq cfg f hf hd level file line fmt args

theorem log_log_lock_denied_witness :
    log_log cfgDenied 2 "a.c" 1 "m\n" [] =
      some { result := 0, console := none, callbackCalls := [],
             lockCalls := [true], finalConfig := cfgDenied } :=
  log_log_lock_denied cfgDenied (fun _ => false) 2 "a.c" 1 "m\n" [] rfl rfl

/-- C2: with the lock acquired and a valid level, console output is
produced exactly when console logging is enabled and the level reaches
the configured minimum: below the minimum nothing is printed and 0 is
returned, at or above the minimum output is produced, and with console
logging disabled nothing is printed at any level. -/
theorem log_log_console_filtering (cfg : tLogConfig) (level : Int)
    (file : String) (line : Int) (fmt : String) (args : List Int)
    (hlock : lockAcquires cfg = true) (h0 : 0 ≤ level) (h5 : level ≤ 5) :
    ((cfg.consoleLoggingDisabled = false ∧ level < cfg.level) →
       (log_log cfg level file line fmt args).map DispatchResult.console = some none ∧
       (log_log cfg level file line fmt args).map DispatchResult.result = some 0) ∧
    ((cfg.consoleLoggingDisabled = false ∧ cfg.level ≤ level) →
       (log_log cfg level file line fmt args).map (fun r => r.console.isSome) = some true) ∧
    (cfg.consoleLoggingDisabled = true →
       (log_log cfg level file line fmt args).map DispatchResult.console = some none) := by
  obtain ⟨pline, _, heq⟩ := log_log_locked_eq cfg level file line fmt args hlock h0 h5
  refine ⟨?_, ?_, ?_⟩
  · rintro ⟨hd, hlt⟩
    rw [heq]
    constructor
    · simp [hd, not_le.2 hlt]
    · simp [hd, not_le.2 hlt]
  · rintro ⟨hd, hge⟩
    rw [heq]
    simp [hd, hge]
  · intro hd
    rw [heq]
    simp [hd]

theorem log_log_console_filtering_witness :
    ((cfgMin2.consoleLoggingDisabled = false ∧ (3 : Int) < cfgMin2.level) →
       (log_log cfgMin2 3 "a.c" 1 "m\n" []).map DispatchResult.console = some none ∧
       (log_log cfgMin2 3 "a.c" 1 "m\n" []).map DispatchResult.result = some 0) ∧
    ((cfgMin2.consoleLoggingDisabled = false ∧ cfgMin2.level ≤ (3 : Int)) →
       (log_log cfgMin2 3 "a.c" 1 "m\n" []).map (fun r => r.console.isSome) = some true) ∧
    (cfgMin2.consoleLoggingDisabled = true →
       (log_log cfgMin2 3 "a.c" 1 "m\n" []).map DispatchResult.console = some none) :=
  log_log_console_filtering cfgMin2 3 "a.c" 1 "m\n" [] rfl (by decide) (by decide)

/-- C5: with the lock acquired and a valid level, exactly the occupied
registry entries whose threshold is at most the event level are
invoked, in slot order, with their own data — a characterization that
does not depend on the console-enabled flag or the global minimum
level. -/
theorem log_log_callback_fanout (cfg : tLogConfig) (level : Int)
    (file : String) (line : Int) (fmt : String) (args : List Int)
    (hlock : lockAcquires cfg = true) (h0 : 0 ≤ level) (h5 : level ≤ 5) :
    (log_log cfg level file line fmt args).map DispatchResult.callbackCalls =
      some ((cfg.callbacks.filter
              (fun c => decide (c.cbFn ≠ 0 ∧ c.cbLogLevel ≤ level))).map
            (fun c => (c.cbFn, c.cbData))) := by
  obtain ⟨pline, _, heq⟩ := log_log_locked_eq cfg level file line fmt args hlock h0 h5
  rw [heq]
  simp [invokeCallbacks_eq_filter_map]

theorem log_log_callback_fanout_witness :
    (log_log { cfgMin2 with callbacks := [⟨7, 3, 1⟩, ⟨0, 0, 0⟩, ⟨8, 4, 2⟩] }
        1 "a.c" 1 "m\n" []).map DispatchResult.callbackCalls =
      some ((([⟨7, 3, 1⟩, ⟨0, 0, 0⟩, ⟨8, 4, 2⟩] :
              List tCallback).filter
              (fun c => decide (c.cbFn ≠ 0 ∧ c.cbLogLevel ≤ (1 : Int)))).map
            (fun c => (c.cbFn, c.cbData))) :=
  log_log_callback_fanout { cfgMin2 with callbacks := [⟨7, 3, 1⟩, ⟨0, 0, 0⟩, ⟨8, 4, 2⟩] }
    1 "a.c" 1 "m\n" [] rfl (by decide) (by decide)

/-- C7: the console line emitted for the event (timestamp 12345, level
TRACE, file "x.c", line 42, format "v=%d\n", argument 48) is exactly
"   12345 TRACE x.c:42: v=48\n": 8-character right-justified
timestamp, 5-character left-justified level name, "file:line: ", then
the formatted body verbatim. -/
theorem log_log_round_trip_line :
    log_log cfgRoundTrip LOG_TRACE "x.c" 42 "v=%d\n" [48] =
      some { result := 28, console := some "   12345 TRACE x.c:42: v=48\n",
             callbackCalls := [], lockCalls := [], finalConfig := cfgRoundTrip } :=
  rfl

/-- C8: a 10-digit timestamp (4294967295) widens the 8-character
minimum timestamp field to 10 characters, with no leading padding and
no truncation. -/
theorem log_print_wide_timestamp :
    log_print true evWideTimestamp =
      some (25, "4294967295 TRACE x.c:1: \n") ∧
    padLeft 8 (toString (4294967295 : Nat)) = "4294967295" :=
  ⟨rfl, rfl⟩

/-- C9: when a lock function is installed, `log_log` calls it with
`false` (release) exactly when the acquire call returned `true`; the
call trace is [acquire, release] on successful acquisition (release
attempted once, after the console and callback steps) and [acquire]
alone when acquisition is denied. -/
theorem log_log_lock_release (cfg : tLogConfig) (f : Bool → Bool)
    (level : Int) (file : String) (line : Int) (fmt : String) (args : List Int)
    (hf : cfg.lockFn = some f) (h0 : 0 ≤ level) (h5 : level ≤ 5) :
    (log_log cfg level file line fmt args).map DispatchResult.lockCalls =
      some (if f true then [true, false] else [true]) := by
  by_cases hft : f true = true
  · have hlock : lockAcquires cfg = true := by
      unfold lockAcquires
      rw [hf]
      exact hft
    obtain ⟨pline, _, heq⟩ := log_log_locked_eq cfg level file line fmt args hlock h0 h5
    rw [heq]
    simp [hf, hft]
  · have hft' : f true = false := by
      simpa using hft
    rw [log_log_denied_eq cfg f hf hft' level file line fmt args]
    simp [hft']

theorem log_log_lock_release_witness :
    (log_log cfgLockOk 1 "a.c" 2 "m\n" []).map DispatchResult.lockCalls =
      some [true, false] :=
  log_log_lock_release cfgLockOk (fun _ => true) 1 "a.c" 2 "m\n" [] rfl
    (by decide) (by decide)

/-- C10: `log_log` performs no range validation of its own; the
level-name table access is in bounds — and the embedded dispatch total
— for every configuration exactly under the precondition
0 ≤ level ≤ 5, while outside that range the table lookup is out of
bounds. -/
theorem log_log_level_in_bounds (cfg : tLogConfig) (level : Int)
    (file : String) (line : Int) (fmt : String) (args : List Int) :
    (0 ≤ level → level ≤ 5 →
       (log_log cfg level file line fmt args).isSome = true) ∧
    (¬ (0 ≤ level ∧ level ≤ 5) → levelName level = none) := by
  constructor
  · intro h0 h5
    cases hl : lockAcquires cfg with
    | true =>
        obtain ⟨pline, _, heq⟩ := log_log_locked_eq cfg level file line fmt args hl h0 h5
        rw [heq]
        rfl
    | false =>
        cases hfn : cfg.lockFn with
        | none =>
            unfold lockAcquires at hl
            rw [hfn] at hl
            exact absurd hl (by simp)
        | some f =>
            have hd : f true = false := by
              unfold lockAcquires at hl
              rw [hfn] at hl
              exact hl
            rw [log_log_denied_eq cfg f hfn hd level file line fmt args]
            rfl
  · intro h
    unfold levelName
    by_cases hneg : level < 0
    · rw [if_pos hneg]
    · rw [if_neg hneg]
      apply List.get?_eq_none.2
      have h5 : ¬ level ≤ 5 := fun hle => h ⟨not_lt.1 hneg, hle⟩
      simp [level_strings]
      omega

theorem log_log_level_in_bounds_witness :
    (log_log cfgMin2 3 "b.c" 1 "m\n" []).isSome = true ∧ levelName 9 = none :=
  ⟨(log_log_level_in_bounds cfgMin2 3 "b.c" 1 "m\n" []).1 (by decide) (by decide),
   (log_log_level_in_bounds cfgMin2 9 "b.c" 1 "m\n" []).2 (by decide)⟩

end LogEc

namespace LogEc

/-- A cleared slot never matches a non-null identity. -/
lemma cbMatches_emptySlot (f d : Nat) (hf : f ≠ 0) :
    cbMatches f d emptySlot = false := by
  simp [cbMatches, emptySlot]
  omega

lemma length_unregister (f d : Nat) (cbs : List tCallback) :
    (log_unregisterCallbackFn f d cbs).length = cbs.length := by
  induction cbs with
  | nil => rfl
  | cons c rest ih =>
      by_cases h : cbMatches f d c = true
      · simp [log_unregisterCallbackFn, h]
      · simp [log_unregisterCallbackFn, h, ih]

/-- Unregistering an identity that is not present changes nothing. -/
lemma unregister_of_countP_zero (f d : Nat) (cbs : List tCallback)
    (h : cbs.countP (cbMatches f d) = 0) :
    log_unregisterCallbackFn f d cbs = cbs := by
  induction cbs with
  | nil => rfl
  | cons c rest ih =>
      rw [List.countP_cons] at h
      by_cases hc : cbMatches f d c = true
      · rw [if_pos hc] at h
        omega
      · rw [if_neg hc] at h
        rw [Nat.add_zero] at h
        simp [log_unregisterCallbackFn, hc, ih h]

/-- Unregistering removes exactly one matching entry (when any). -/
lemma countP_match_unregister (f d : Nat) (hf : f ≠ 0) (cbs : List tCallback) :
    (log_unregisterCallbackFn f d cbs).countP (cbMatches f d) =
      cbs.countP (cbMatches f d) - 1 := by
  induction cbs with
  | nil => rfl
  | cons c rest ih =>
      by_cases hc : cbMatches f d c = true
      · simp [log_unregisterCallbackFn, hc, List.countP_cons,
              cbMatches_emptySlot f d hf]
      · simp [log_unregisterCallbackFn, hc, List.countP_cons, ih]

/-- Unregistering a present identity frees exactly one slot. -/
lemma countP_empty_unregister (f d : Nat) (hf : f ≠ 0) (cbs : List tCallback)
    (h : 0 < cbs.countP (cbMatches f d)) :
    (log_unregisterCallbackFn f d cbs).countP isEmptySlot =
      cbs.countP isEmptySlot + 1 := by
  induction cbs with
  | nil => simp at h
  | cons c rest ih =>
      by_cases hc : cbMatches f d c = true
      · have hcf : c.cbFn = f ∧ c.cbData = d := by simpa [cbMatches] using hc
        have hcne : isEmptySlot c = false := by
          simp [isEmptySlot, hcf.1]
          omega
        simp [log_unregisterCallbackFn, hc, List.countP_cons, hcne,
              isEmptySlot, emptySlot]
        omega
      · have h' : 0 < rest.countP (cbMatches f d) := by
          rw [List.countP_cons] at h
          simpa [hc] using h
        simp [log_unregisterCallbackFn, hc, List.countP_cons, ih h']
        omega

/-- The registration scan fails on a registry with no empty slot, and
leaves it unchanged. -/
lemma installFirstEmpty_of_full (e : tCallback) (cbs : List tCallback)
    (h : cbs.countP isEmptySlot = 0) :
    installFirstEmpty e cbs = (cbs, false) := by
  induction cbs with
  | nil => rfl
  | cons c rest ih =>
      rw [List.countP_cons] at h
      by_cases hc : isEmptySlot c = true
      · rw [if_pos hc] at h
        omega
      · rw [if_neg hc] at h
        rw [Nat.add_zero] at h
        simp [installFirstEmpty, hc, ih h]

/-- The registration scan succeeds when an empty slot exists. -/
lemma installFirstEmpty_snd (e : tCallback) (cbs : List tCallback)
    (h : 0 < cbs.countP isEmptySlot) :
    (installFirstEmpty e cbs).2 = true := by
  induction cbs with
  | nil => simp at h
  | cons c rest ih =>
      by_cases hc : isEmptySlot c = true
      · simp [installFirstEmpty, hc]
      · have h' : 0 < rest.countP isEmptySlot := by
          rw [List.countP_cons] at h
          simpa [hc] using h
        simp [installFirstEmpty, hc, ih h']

lemma length_installFirstEmpty (e : tCallback) (cbs : List tCallback) :
    (installFirstEmpty e cbs).1.length = cbs.length := by
  induction cbs with
  | nil => rfl
  | cons c rest ih =>
      by_cases hc : isEmptySlot c = true
      · simp [installFirstEmpty, hc]
      · simp [installFirstEmpty, hc, ih]

lemma mem_installFirstEmpty (e c : tCallback) (cbs : List tCallback)
    (hc : c ∈ (installFirstEmpty e cbs).1) : c = e ∨ c ∈ cbs := by
  induction cbs with
  | nil =>
      simp [installFirstEmpty] at hc
  | cons a rest ih =>
      by_cases ha : isEmptySlot a = true
      · simp [installFirstEmpty, ha] at hc
        rcases hc with hc | hc
        · exact Or.inl hc
        · exact Or.inr (List.mem_cons_of_mem a hc)
      · simp [installFirstEmpty, ha] at hc
        rcases hc with hc | hc
        · exact Or.inr (hc ▸ List.mem_cons_self a rest)
        · rcases ih hc with h | h
          · exact Or.inl h
          · exact Or.inr (List.mem_cons_of_mem a h)

/-- Installing a non-empty entry consumes exactly one free slot. -/
lemma countP_empty_installFirstEmpty (e : tCallback) (cbs : List tCallback)
    (he : isEmptySlot e = false) (h : 0 < cbs.countP isEmptySlot) :
    (installFirstEmpty e cbs).1.countP isEmptySlot + 1 = cbs.countP isEmptySlot := by
  induction cbs with
  | nil => simp at h
  | cons c rest ih =>
      by_cases hc : isEmptySlot c = true
      · simp [installFirstEmpty, hc, List.countP_cons, he]
      · have h' : 0 < rest.countP isEmptySlot := by
          rw [List.countP_cons] at h
          simpa [hc] using h
        simp [installFirstEmpty, hc, List.countP_cons, ih h']

/-- Installing a matching entry into a registry with no match and a free
slot yields exactly one match. -/
lemma countP_match_installFirstEmpty (f d : Nat) (e : tCallback)
    (cbs : List tCallback) (hm : cbMatches f d e = true)
    (hzero : cbs.countP (cbMatches f d) = 0) (h : 0 < cbs.countP isEmptySlot) :
    (installFirstEmpty e cbs).1.countP (cbMatches f d) = 1 := by
  induction cbs with
  | nil => simp at h
  | cons a rest ih =>
      rw [List.countP_cons] at hzero
      by_cases hma : cbMatches f d a = true
      · rw [if_pos hma] at hzero
        omega
      · rw [if_neg hma] at hzero
        rw [Nat.add_zero] at hzero
        by_cases ha : isEmptySlot a = true
        · simp [installFirstEmpty, ha, List.countP_cons, hm, hzero]
        · have h' : 0 < rest.countP isEmptySlot := by
            rw [List.countP_cons] at h
            simpa [ha] using h
          simp [installFirstEmpty, ha, List.countP_cons, hma, ih hzero h']

end LogEc

namespace LogEc

/-- A registry with no entry matching `(f, d)` never produces the
invocation pair `(f, d)`. -/
lemma pair_not_mem_invokeCallbacks (f d : Nat) (level : Int)
    (cbs : List tCallback) (hzero : cbs.countP (cbMatches f d) = 0) :
    (f, d) ∉ invokeCallbacks level cbs := by
  induction cbs with
  | nil => simp [invokeCallbacks]
  | cons c rest ih =>
      rw [List.countP_cons] at hzero
      by_cases hc : cbMatches f d c = true
      · rw [if_pos hc] at hzero
        omega
      · rw [if_neg hc] at hzero
        rw [Nat.add_zero] at hzero
        by_cases hfire : c.cbFn ≠ 0 ∧ c.cbLogLevel ≤ level
        · simp only [invokeCallbacks, if_pos hfire, List.mem_cons]
          rintro (hpair | hmem)
          · have : c.cbFn = f ∧ c.cbData = d := by
              have h1 : f = c.cbFn := congrArg Prod.fst hpair
              have h2 : d = c.cbData := congrArg Prod.snd hpair
              exact ⟨h1.symm, h2.symm⟩
            exact hc (by simp [cbMatches, this.1, this.2])
          · exact ih hzero hmem
        · simp only [invokeCallbacks, if_neg hfire]
          exact ih hzero

/-- Unregistering only clears a slot; every entry of the result is
either the cleared sentinel or an untouched entry of the original
registry. -/
lemma mem_unregister (f d : Nat) (c : tCallback) (cbs : List tCallback)
    (hc : c ∈ log_unregisterCallbackFn f d cbs) : c = emptySlot ∨ c ∈ cbs := by
  induction cbs with
  | nil => simp [log_unregisterCallbackFn] at hc
  | cons a rest ih =>
      by_cases ha : cbMatches f d a = true
      · simp [log_unregisterCallbackFn, ha] at hc
        rcases hc with hc | hc
        · exact Or.inl hc
        · exact Or.inr (List.mem_cons_of_mem a hc)
      · simp [log_unregisterCallbackFn, ha] at hc
        rcases hc with hc | hc
        · exact Or.inr (hc ▸ List.mem_cons_self a rest)
        · rcases ih hc with h | h
          · exact Or.inl h
          · exact Or.inr (List.mem_cons_of_mem a h)

/-- After unregistering an identity that occurs at most once, the
fan-out list is the old fan-out list with that identity's pair
removed; every other invocation is preserved, in order. -/
lemma invokeCallbacks_unregister (f d : Nat)
    (cbs : List tCallback) (hle : cbs.countP (cbMatches f d) ≤ 1) (level : Int) :
    invokeCallbacks level (log_unregisterCallbackFn f d cbs) =
      (invokeCallbacks level cbs).filter (fun p => decide (p ≠ (f, d))) := by
  induction cbs with
  | nil => rfl
  | cons c rest ih =>
      by_cases hc : cbMatches f d c = true
      · have hcf : c.cbFn = f ∧ c.cbData = d := by simpa [cbMatches] using hc
        have hrest0 : rest.countP (cbMatches f d) = 0 := by
          rw [List.countP_cons, if_pos hc] at hle
          omega
        have hnoop : (invokeCallbacks level rest).filter
            (fun p => !decide (p = (f, d))) = invokeCallbacks level rest := by
          apply List.filter_eq_self.2
          intro a ha
          have hane : a ≠ (f, d) := by
            intro heq
            exact pair_not_mem_invokeCallbacks f d level rest hrest0 (heq ▸ ha)
          simpa using hane
        have hlhs : invokeCallbacks level (log_unregisterCallbackFn f d (c :: rest)) =
            invokeCallbacks level rest := by
          simp [log_unregisterCallbackFn, hc, invokeCallbacks, emptySlot]
        rw [hlhs]
        by_cases hfire : c.cbFn ≠ 0 ∧ c.cbLogLevel ≤ level
        · simp only [invokeCallbacks, if_pos hfire, List.filter_cons]
          rw [hcf.1, hcf.2]
          simp [hnoop]
        · simp only [invokeCallbacks, if_neg hfire]
          simpa using hnoop.symm
      · have hle' : rest.countP (cbMatches f d) ≤ 1 := by
          rw [List.countP_cons, if_neg hc] at hle
          omega
        have hcne : ((c.cbFn, c.cbData) : Nat × Nat) ≠ (f, d) := by
          intro heq
          have h1 : c.cbFn = f := congrArg Prod.fst heq
          have h2 : c.cbData = d := congrArg Prod.snd heq
          exact hc (by simp [cbMatches, h1, h2])
        by_cases hfire : c.cbFn ≠ 0 ∧ c.cbLogLevel ≤ level
        · simp only [log_unregisterCallbackFn, if_neg hc, invokeCallbacks,
                     if_pos hfire, List.filter_cons]
          simp [hcne, ih hle']
        · simp only [log_unregisterCallbackFn, if_neg hc, invokeCallbacks,
                     if_neg hfire]
          exact ih hle'

/-- C3: re-registering an already-registered `(callback, data)` identity
with a new level succeeds, leaves exactly one entry for that identity
(carrying the new level), and consumes no additional capacity slot:
the number of free slots and the registry length are unchanged. -/
theorem log_registerCallbackFn_reregister (cbs : List tCallback)
    (cbFn cbData : Nat) (newLevel : Int) (hfn : cbFn ≠ 0)
    (hone : cbs.countP (cbMatches cbFn cbData) = 1) :
    (log_registerCallbackFn cbFn cbData newLevel cbs).2 = true ∧
    (log_registerCallbackFn cbFn cbData newLevel cbs).1.countP
      (cbMatches cbFn cbData) = 1 ∧
    (∀ c ∈ (log_registerCallbackFn cbFn cbData newLevel cbs).1,
       cbMatches cbFn cbData c = true → c.cbLogLevel = newLevel) ∧
    (log_registerCallbackFn cbFn cbData newLevel cbs).1.countP isEmptySlot =
      cbs.countP isEmptySlot ∧
    (log_registerCallbackFn cbFn cbData newLevel cbs).1.length = cbs.length := by
  have hu0 : (log_unregisterCallbackFn cbFn cbData cbs).countP
      (cbMatches cbFn cbData) = 0 := by
    rw [countP_match_unregister cbFn cbData hfn, hone]
  have hue : (log_unregisterCallbackFn cbFn cbData cbs).countP isEmptySlot =
      cbs.countP isEmptySlot + 1 :=
    countP_empty_unregister cbFn cbData hfn cbs (by omega)
  have hpos : 0 < (log_unregisterCallbackFn cbFn cbData cbs).countP isEmptySlot := by
    omega
  have hm : cbMatches cbFn cbData ⟨cbFn, cbData, newLevel⟩ = true := by
    simp [cbMatches]
  have he : isEmptySlot (⟨cbFn, cbData, newLevel⟩ : tCallback) = false := by
    simp [isEmptySlot]
    omega
  unfold log_registerCallbackFn
  refine ⟨?_, ?_, ?_, ?_, ?_⟩
  · exact installFirstEmpty_snd _ _ hpos
  · exact countP_match_installFirstEmpty cbFn cbData _ _ hm hu0 hpos
  · intro c hc hmc
    rcases mem_installFirstEmpty _ c _ hc with hce | hcu
    · rw [hce]
    · exact absurd hmc (by simpa using List.countP_eq_zero.1 hu0 c hcu)
  · have := countP_empty_installFirstEmpty (⟨cbFn, cbData, newLevel⟩ : tCallback)
      (log_unregisterCallbackFn cbFn cbData cbs) he hpos
    omega
  · rw [length_installFirstEmpty, length_unregister]

theorem log_registerCallbackFn_reregister_witness :
    (log_registerCallbackFn 5 9 4 [⟨5, 9, 1⟩, emptySlot]).2 = true ∧
    (log_registerCallbackFn 5 9 4 [⟨5, 9, 1⟩, emptySlot]).1.countP
      (cbMatches 5 9) = 1 ∧
    (log_registerCallbackFn 5 9 4 [⟨5, 9, 1⟩, emptySlot]).1.countP isEmptySlot =
      ([⟨5, 9, 1⟩, emptySlot] : List tCallback).countP isEmptySlot :=
  ⟨(log_registerCallbackFn_reregister [⟨5, 9, 1⟩, emptySlot] 5 9 4
      (by decide) (by decide)).1,
   (log_registerCallbackFn_reregister [⟨5, 9, 1⟩, emptySlot] 5 9 4
      (by decide) (by decide)).2.1,
   (log_registerCallbackFn_reregister [⟨5, 9, 1⟩, emptySlot] 5 9 4
      (by decide) (by decide)).2.2.2.1⟩

/-- C4: registering a new distinct identity into a full registry (no
empty slot, identity not present) fails and leaves every existing
entry — function, data and threshold — unchanged. -/
theorem log_registerCallbackFn_full (cbs : List tCallback)
    (cbFn cbData : Nat) (newLevel : Int)
    (hfull : cbs.countP isEmptySlot = 0)
    (habsent : cbs.countP (cbMatches cbFn cbData) = 0) :
    log_registerCallbackFn cbFn cbData newLevel cbs = (cbs, false) := by
  unfold log_registerCallbackFn
  rw [unregister_of_countP_zero cbFn cbData cbs habsent]
  exact installFirstEmpty_of_full _ cbs hfull

theorem log_registerCallbackFn_full_witness :
    log_registerCallbackFn 2 0 3 [⟨1, 0, 0⟩] = ([⟨1, 0, 0⟩], false) :=
  log_registerCallbackFn_full [⟨1, 0, 0⟩] 2 0 3 (by decide) (by decide)

/-- C6: unregistering removes at most one entry and only an exact
`(callback, data)` match (the match count drops by exactly one, the
length is unchanged, and a miss is a no-op), and afterwards that
identity no longer appears in the fan-out of any dispatch while every
other invocation is preserved in order. -/
theorem log_unregisterCallbackFn_spec (cbs : List tCallback)
    (cbFn cbData : Nat) (hfn : cbFn ≠ 0) :
    (log_unregisterCallbackFn cbFn cbData cbs).length = cbs.length ∧
    (cbs.countP (cbMatches cbFn cbData) = 0 →
       log_unregisterCallbackFn cbFn cbData cbs = cbs) ∧
    (log_unregisterCallbackFn cbFn cbData cbs).countP (cbMatches cbFn cbData) =
      cbs.countP (cbMatches cbFn cbData) - 1 ∧
    (∀ c ∈ log_unregisterCallbackFn cbFn cbData cbs, c = emptySlot ∨ c ∈ cbs) ∧
    (cbs.countP (cbMatches cbFn cbData) ≤ 1 → ∀ level : Int,
       invokeCallbacks level (log_unregisterCallbackFn cbFn cbData cbs) =
         (invokeCallbacks level cbs).filter (fun p => decide (p ≠ (cbFn, cbData)))) :=
  ⟨length_unregister cbFn cbData cbs,
   unregister_of_countP_zero cbFn cbData cbs,
   countP_match_unregister cbFn cbData hfn cbs,
   fun c hc => mem_unregister cbFn cbData c cbs hc,
   fun hle level => invokeCallbacks_unregister cbFn cbData cbs hle level⟩

theorem log_unregisterCallbackFn_spec_witness :
    (log_unregisterCallbackFn 1 10 [⟨1, 10, 0⟩, ⟨2, 20, 0⟩]).length =
      ([⟨1, 10, 0⟩, ⟨2, 20, 0⟩] : List tCallback).length ∧
    (log_unregisterCallbackFn 1 10 [⟨1, 10, 0⟩, ⟨2, 20, 0⟩]).countP
      (cbMatches 1 10) =
      ([⟨1, 10, 0⟩, ⟨2, 20, 0⟩] : List tCallback).countP (cbMatches 1 10) - 1 ∧
    invokeCallbacks 0 (log_unregisterCallbackFn 1 10 [⟨1, 10, 0⟩, ⟨2, 20, 0⟩]) =
      (invokeCallbacks 0 [⟨1, 10, 0⟩, ⟨2, 20, 0⟩]).filter
        (fun p => decide (p ≠ (1, 10))) := by
  have h := log_unregisterCallbackFn_spec [⟨1, 10, 0⟩, ⟨2, 20, 0⟩] 1 10 (by decide)
  exact ⟨h.1, h.2.2.1, h.2.2.2.2 (by decide) 0⟩

end LogEc
